import Mathlib

/-!
# IRIS-SOAR core: a shallow embedding in Lean 4

This file embeds the alert/case correlation core of the IRIS-SOAR repository:
the timeline store (`add_to_timeline`), the indicator dedup pass
(`remove_duplicates_from_dict`), the `CaseFile` aggregate
(`add_context`, `update_audit`), the `AuditLog` state machine
(`set_successful` / `set_warning` / `set_error`), the whitelist check
(`check_against_whitelist`) and the case-worker playbook dispatch loop
(`isoar_case_worker.main`, inner playbook loop).

Conventions of the embedding:
* Python `datetime` values are embedded as `Int` (all that the code uses is
  their total order and `now` stamping, which we pass as an explicit argument).
* A Python value that the code only tests for truthiness before use is
  embedded as an `Option`; `none` covers both `None` and falsy values
  such as the empty string.
* Code that can raise an exception the caller does not catch is embedded in
  `Except String`.
* Mutation of `self` is embedded as explicit state passing: a method that
  mutates returns the updated record.
-/

set_option maxRecDepth 4000

/-! ## Timeline store (`lib/generic_helper.py`)

`THRESHOLD_MAX_CONTEXTS = 1000`: "The maximum number of contexts for each
type that can be added to a alert case". -/

def THRESHOLD_MAX_CONTEXTS : Nat := 1000

/-- Python `s.startswith(pre)`, over the character list of the string (the
character-list form kernel-reduces, unlike `String.startsWith`). -/
def pyStartsWith (s pre : String) : Bool :=
  pre.data.isPrefixOf s.data

/-- Python `s[n:]`. -/
def pyDrop (s : String) (n : Nat) : String :=
  ⟨s.data.drop n⟩

/-- Python `s.lower()` (ASCII case folding suffices for the values the
repository builds registry indicators from). -/
def pyToLower (s : String) : String :=
  ⟨s.data.map Char.toLower⟩

/-- Evidence value attached to a flow or process: the embedded `ContextFile`
fields that `add_context` reads (`name`, `md5`, `sha1`, `sha256`).
Hash fields are tested for truthiness before use, hence `Option`. -/
structure FileData where
  name : String
  md5 : Option String
  sha1 : Option String
  sha256 : Option String
deriving DecidableEq, Repr

/-- The embedded `Certificate` fields read by `add_context`
(`subject`, `subject_alternative_names`). -/
structure CertData where
  subject : String
  subject_alternative_names : List String
deriving DecidableEq, Repr

/-- The embedded `HTTP` fields read by `add_context`
(`host`, `full_url`, `request_body`, `file`, `certificate`). -/
structure HTTPData where
  host : String
  full_url : String
  request_body : Option String
  file : Option FileData
  certificate : Option CertData
deriving DecidableEq, Repr

/-- The embedded `DNSQuery` fields read by `add_context`
(`query`, `query_response`).  When `query_response` is present it is a
value accepted by `cast_to_ipaddress` (the repository only stores resolved
IP answers there). -/
structure DNSData where
  query : String
  query_response : Option String
deriving DecidableEq, Repr

/-- The embedded `ContextFlow` fields read by `add_context`
(`source_ip`, `destination_ip`, `http`, `dns_query`). -/
structure FlowData where
  source_ip : String
  destination_ip : String
  http : Option HTTPData
  dns_query : Option DNSData
deriving DecidableEq, Repr

/-- One context value, i.e. one alternative of the `Union` type accepted by
`CaseFile.add_context` in `lib/class_helper.py`.  Each variant carries its
`timestamp` and exactly the fields that `add_context` reads from it.
The `irisCase` variant embeds the `dict` branch (an IRIS case object):
`created` is `context["IRIS Case"]["Created"]` and `truthy` is the
truthiness of `context["IRIS Case"]` tested by the branch. -/
inductive Context where
  | log (timestamp : Int) (flow : Option FlowData)
  | process (timestamp : Int) (flow : Option FlowData)
      (md5 sha1 sha256 : Option String)
  | flow (timestamp : Int) (data : FlowData)
  | threatIntel (timestamp : Int)
  | location (timestamp : Int) (country : Option String)
  | asset (timestamp : Int) (local_ip global_ip : Option String)
  | person (timestamp : Int)
  | registry (timestamp : Int) (key value : String)
  | file (timestamp : Int) (data : FileData)
  | irisCase (created : Int) (truthy : Bool)
deriving DecidableEq, Repr

/-- The `timestamp` attribute of a context object (for the `dict` branch,
`context["IRIS Case"]["Created"]`), as read at the top of `add_context`. -/
def Context.ts : Context → Int
  | .log t _ => t
  | .process t _ _ _ _ => t
  | .flow t _ => t
  | .threatIntel t => t
  | .location t _ => t
  | .asset t _ _ => t
  | .person t => t
  | .registry t _ _ => t
  | .file t _ => t
  | .irisCase t _ => t

/-- Embeds the guard `type(context) == list and len(context) >= THRESHOLD_MAX_CONTEXTS`
at the top of `add_to_timeline`.  The tested value is `context` — the item
being added — and a context object is never a Python `list`, so for every
item the timelines actually receive this conjunction is `False` (the
length operand is short-circuited away). -/
def context_is_big_list (_context : Context) : Bool :=
  false

/-- The insertion loop of `add_to_timeline` for a non-empty list:

```
for i in range(len(context_list)):
    if context_list[i].timestamp > timestamp:
        context_list.insert(i, context)
        break
    elif i == len(context_list) - 1:
        context_list.append(context)
        break
```

The first branch fires at the first element whose timestamp is strictly
greater than `timestamp`; the second fires at the last index when no
earlier element did. -/
def tlInsertLoop (context : Context) (timestamp : Int) : List Context → List Context
  | [] => []
  | [x] => if x.ts > timestamp then context :: [x] else [x, context]
  | x :: xs => if x.ts > timestamp then context :: x :: xs else x :: tlInsertLoop context timestamp xs

/-- `add_to_timeline(context_list, context, timestamp)` from
`lib/generic_helper.py`: overflow guard (see `context_is_big_list`), then
append to an empty list, else the positional insertion loop. -/
def add_to_timeline (context_list : List Context) (context : Context) (timestamp : Int) : List Context :=
  if context_is_big_list context then
    context_list
  else if context_list.length = 0 then
    context_list ++ [context]
  else
    tlInsertLoop context timestamp context_list

/-! ## Indicator dedup (`remove_duplicates_from_dict`) -/

/-- The scan building `dict.fromkeys(value)`: walk the list keeping the
keys already `seen`; a value is kept exactly at its first occurrence. -/
def pyDedupGo {α : Type} [DecidableEq α] (seen : List α) : List α → List α
  | [] => []
  | x :: xs => if x ∈ seen then pyDedupGo seen xs else x :: pyDedupGo (seen ++ [x]) xs

/-- `list(dict.fromkeys(value))`: removes duplicates from a list keeping the
first occurrence of each value, in order (Python `dict` preserves insertion
order, and `dict.fromkeys` keys a dict by the first occurrences). -/
def pyDedup {α : Type} [DecidableEq α] (l : List α) : List α :=
  pyDedupGo [] l

/-! ## Wildcard strip pass of `CaseFile.add_context`

```
for domain in self.indicators["domain"]:
    if domain.startswith("*"):
        self.indicators["domain"].remove(domain)
        self.indicators["domain"].append(domain[2:])
```

Python `for` iterates by an internal index `k` over the list being mutated;
`remove` deletes the first element equal to `domain` (strings compare by
value) and `append` adds the stripped value at the end, so the length of the
list is unchanged by each iteration and the loop runs exactly
`initial length` times.  `stripDomainsLoop fuel k lst` runs the remaining
`fuel` iterations with the internal index at `k`. -/

def stripDomainsLoop : Nat → Nat → List String → List String
  | 0, _, lst => lst
  | fuel + 1, k, lst =>
    if h : k < lst.length then
      let domain := lst.get ⟨k, h⟩
      if pyStartsWith domain "*" then
        stripDomainsLoop fuel (k + 1) (lst.erase domain ++ [pyDrop domain 2])
      else
        stripDomainsLoop fuel (k + 1) lst
    else
      lst

/-- The whole wildcard strip pass over the `domain` indicator list. -/
def stripDomains (lst : List String) : List String :=
  stripDomainsLoop lst.length 0 lst

/-! ## `AuditLog` (`lib/class_helper.py`)

Fields assigned by `AuditLog.__init__`.  Python `datetime` stamps are
embedded as `Int` and `datetime.datetime.now()` is an explicit `now`
argument.  `result_data` is a dict whose payload values we embed as
`String`; `none` embeds `result_data is None`.  `result_exception` is
`None` until `set_error` stores `str(exception)`. -/

structure AuditLog where
  playbook : String
  stage : Int
  title : String
  description : String
  start_time : Int
  related_iris_case_number : Option String
  result_was_successful : Bool
  result_had_warnings : Bool
  result_had_errors : Bool
  result_request_retry : Bool
  result_message : String
  result_data : Option (List (String × String))
  result_in_iris_case : Bool
  result_time : Int
  result_exception : Option String
  result_warning_messages : List String
  stage_done : Bool
  playbook_done : Bool
deriving DecidableEq, Repr

/-- `AuditLog(playbook, stage, title, description, start_time, ...)` with the
constructor defaults of `lib/class_helper.py` (`result_*` flags `False`,
`result_message` and `related_iris_case_number` empty, `result_data` empty
dict, `result_time` defaulting to `now`, `stage_done = False`). -/
def AuditLog.mk' (playbook : String) (stage : Int) (title description : String)
    (start_time : Int) (now : Int) : AuditLog :=
  { playbook := playbook
    stage := stage
    title := title
    description := description
    start_time := start_time
    related_iris_case_number := some ""
    result_was_successful := false
    result_had_warnings := false
    result_had_errors := false
    result_request_retry := false
    result_message := ""
    result_data := some []
    result_in_iris_case := false
    result_time := now
    result_exception := none
    result_warning_messages := []
    stage_done := false
    playbook_done := false }

/-- Python `d[k] = v` on a dict embedded as an association list: replace the
value at an existing key, else append the new pair. -/
def dictSet (d : List (String × String)) (k v : String) : List (String × String) :=
  if d.any (fun p => p.1 = k) then
    d.map (fun p => if p.1 = k then (k, v) else p)
  else
    d ++ [(k, v)]

/-- `AuditLog.set_successful(message, data, iris_case_number)`. -/
def AuditLog.set_successful (a : AuditLog) (message : String) (data : String)
    (iris_case_number : Option String) (now : Int) : AuditLog :=
  let a := { a with
    result_was_successful := true
    result_request_retry := false
    result_message := message
    result_data := some (dictSet (a.result_data.getD []) "success" data)
    result_time := now }
  let a := match iris_case_number with
    | some n => { a with result_in_iris_case := true, related_iris_case_number := some n }
    | none => a
  { a with stage_done := true }

/-- `AuditLog.set_warning(in_iris_case, warning_message, data)`. -/
def AuditLog.set_warning (a : AuditLog) (in_iris_case : Bool) (warning_message : String)
    (data : String) (now : Int) : AuditLog :=
  { a with
    result_had_warnings := true
    result_had_errors := false
    result_request_retry := false
    result_warning_messages := a.result_warning_messages ++ [warning_message]
    result_data := some (dictSet (a.result_data.getD []) "warnings" data)
    result_in_iris_case := in_iris_case
    result_time := now
    stage_done := true }

/-- `AuditLog.set_error(in_iris_case, message, data, exception)`. -/
def AuditLog.set_error (a : AuditLog) (in_iris_case : Bool) (message : String)
    (data : String) (exception : String) (now : Int) : AuditLog :=
  { a with
    result_had_errors := true
    result_request_retry := true
    result_message := message
    result_data := some (dictSet (a.result_data.getD []) "error" data)
    result_in_iris_case := in_iris_case
    result_time := now
    result_exception := some exception
    stage_done := true }

/-! ## `CaseFile` (`lib/class_helper.py`) -/

/-- The embedded `CaseFile` state: the fields of `CaseFile.__init__` that
`add_context`, `update_audit` and the dispatch loop touch.  `alerts_names`
lists the `.name` of each alert in `self.alerts` (only `alerts[0].name` is
ever read, by `update_audit`).  The indicator dict
`self.indicators = ip/domain/url/hash/email/countries/registry/other` is
split into one field per category. -/
structure CaseFileState where
  alerts_names : List String
  playbooks : List String
  audit_trail : List AuditLog
  handled_by_playbooks : List String
  playbooks_to_retry : List String
  iris_case : Option Int
  context_logs : List Context
  context_processes : List Context
  context_flows : List Context
  context_threat_intel : List Context
  context_locations : List Context
  context_devices : List Context
  context_persons : List Context
  context_files : List Context
  context_registries : List Context
  indicators_ip : List String
  indicators_domain : List String
  indicators_url : List String
  indicators_hash : List String
  indicators_email : List String
  indicators_countries : List String
  indicators_registry : List String
  indicators_other : List String
deriving DecidableEq, Repr

/-- `CaseFile.__init__(alerts, case_id)`: empty timelines and indicator
lists, and an audit trail holding the single `"None/Initial"` stage-0 row
(whose `result_*` fields `__init__` immediately overwrites). -/
def caseFileInit (alerts_names : List String) (now : Int) : CaseFileState :=
  { alerts_names := alerts_names
    playbooks := []
    audit_trail :=
      [{ AuditLog.mk' "None/Initial" 0 "Initializing CaseFile"
           "Initializing the CaseFile onject" now now with
           result_message := "Initializing CaseFile was successful." }]
    handled_by_playbooks := []
    playbooks_to_retry := []
    iris_case := none
    context_logs := []
    context_processes := []
    context_flows := []
    context_threat_intel := []
    context_locations := []
    context_devices := []
    context_persons := []
    context_files := []
    context_registries := []
    indicators_ip := []
    indicators_domain := []
    indicators_url := []
    indicators_hash := []
    indicators_email := []
    indicators_countries := []
    indicators_registry := []
    indicators_other := [] }

/-- The indicator appends that `add_context` performs for an embedded HTTP
transaction inside a `ContextFlow` (`context.http`): host to `domain`,
`full_url` to `url`, truthy `request_body` to `other`, the attached file's
name to `other` and its truthy hashes to `hash`. -/
def appendHttpIndicators (cf : CaseFileState) (h : HTTPData) : CaseFileState :=
  let cf := { cf with
    indicators_domain := cf.indicators_domain ++ [h.host]
    indicators_url := cf.indicators_url ++ [h.full_url] }
  let cf := match h.request_body with
    | some b => { cf with indicators_other := cf.indicators_other ++ [b] }
    | none => cf
  match h.file with
  | some f =>
    let cf := { cf with indicators_other := cf.indicators_other ++ [f.name] }
    let cf := match f.md5 with
      | some v => { cf with indicators_hash := cf.indicators_hash ++ [v] }
      | none => cf
    let cf := match f.sha1 with
      | some v => { cf with indicators_hash := cf.indicators_hash ++ [v] }
      | none => cf
    match f.sha256 with
    | some v => { cf with indicators_hash := cf.indicators_hash ++ [v] }
    | none => cf
  | none => cf

/-- The indicator appends `add_context` performs for a DNS transaction
inside a `ContextFlow` (`context.dns_query`): the query name to `domain`
and, when the response is truthy (and hence castable to an IP address),
the response to `ip`. -/
def appendDnsIndicators (cf : CaseFileState) (d : DNSData) : CaseFileState :=
  let cf := { cf with indicators_domain := cf.indicators_domain ++ [d.query] }
  match d.query_response with
  | some r => { cf with indicators_ip := cf.indicators_ip ++ [r] }
  | none => cf

/-- The certificate appends `add_context` performs when
`context.http and context.http.certificate` is truthy: the subject and all
subject-alternative names to `domain`. -/
def appendCertIndicators (cf : CaseFileState) (c : CertData) : CaseFileState :=
  { cf with indicators_domain :=
      cf.indicators_domain ++ [c.subject] ++ c.subject_alternative_names }

/-- The per-type branch of `add_context`: timeline insertion via
`add_to_timeline` plus the indicator appends of that branch. -/
def addContextBranch (cf : CaseFileState) (context : Context) (timestamp : Int) :
    Except String CaseFileState :=
  match context with
  | .log _ flow =>
    let cf := { cf with context_logs := add_to_timeline cf.context_logs context timestamp }
    match flow with
    | some fl =>
      .ok { cf with indicators_ip := cf.indicators_ip ++ [fl.source_ip, fl.destination_ip] }
    | none => .ok cf
  | .process _ flow md5 sha1 sha256 =>
    let cf := { cf with context_processes := add_to_timeline cf.context_processes context timestamp }
    let cf := match flow with
      | some fl =>
        { cf with indicators_ip := cf.indicators_ip ++ [fl.source_ip, fl.destination_ip] }
      | none => cf
    let cf := match md5 with
      | some v => { cf with indicators_hash := cf.indicators_hash ++ [v] }
      | none => cf
    let cf := match sha1 with
      | some v => { cf with indicators_hash := cf.indicators_hash ++ [v] }
      | none => cf
    match sha256 with
    | some v => .ok { cf with indicators_hash := cf.indicators_hash ++ [v] }
    | none => .ok cf
  | .flow _ data =>
    let cf := { cf with context_flows := add_to_timeline cf.context_flows context timestamp }
    let cf := { cf with indicators_ip := cf.indicators_ip ++ [data.source_ip, data.destination_ip] }
    let cf := match data.http with
      | some h => appendHttpIndicators cf h
      | none => cf
    let cf := match data.dns_query with
      | some d => appendDnsIndicators cf d
      | none => cf
    match data.http with
    | some h =>
      match h.certificate with
      | some c => .ok (appendCertIndicators cf c)
      | none => .ok cf
    | none => .ok cf
  | .threatIntel _ =>
    .ok { cf with context_threat_intel := add_to_timeline cf.context_threat_intel context timestamp }
  | .location _ country =>
    let cf := { cf with context_locations := add_to_timeline cf.context_locations context timestamp }
    match country with
    | some c => .ok { cf with indicators_countries := cf.indicators_countries ++ [c] }
    | none => .ok cf
  | .asset _ local_ip global_ip =>
    let cf := { cf with context_devices := add_to_timeline cf.context_devices context timestamp }
    let cf := match local_ip with
      | some v => { cf with indicators_ip := cf.indicators_ip ++ [v] }
      | none => cf
    match global_ip with
    | some v => .ok { cf with indicators_ip := cf.indicators_ip ++ [v] }
    | none => .ok cf
  | .person _ =>
    .ok { cf with context_persons := add_to_timeline cf.context_persons context timestamp }
  | .registry _ key value =>
    let cf := { cf with context_registries := add_to_timeline cf.context_registries context timestamp }
    .ok { cf with indicators_registry :=
      cf.indicators_registry ++ [pyToLower key ++ "->" ++ pyToLower value] }
  | .file _ data =>
    let cf := { cf with context_files := add_to_timeline cf.context_files context timestamp }
    let cf := { cf with indicators_other := cf.indicators_other ++ [data.name] }
    let cf := match data.md5 with
      | some v => { cf with indicators_hash := cf.indicators_hash ++ [v] }
      | none => cf
    let cf := match data.sha1 with
      | some v => { cf with indicators_hash := cf.indicators_hash ++ [v] }
      | none => cf
    match data.sha256 with
    | some v => .ok { cf with indicators_hash := cf.indicators_hash ++ [v] }
    | none => .ok cf
  | .irisCase created truthy =>
    if truthy then
      .ok { cf with iris_case := some created }
    else
      .error "TypeError: Given dict was no valid iris-case object."

/-- `CaseFile.add_context(context)` from `lib/class_helper.py`: read the
timestamp, run the per-type branch, then the wildcard strip pass over the
`domain` indicators, then `remove_duplicates_from_dict(self.indicators)`
(which applies `list(dict.fromkeys(...))` to every category list). -/
def add_context (cf : CaseFileState) (context : Context) : Except String CaseFileState := do
  let timestamp := context.ts
  let cf ← addContextBranch cf context timestamp
  let cf := { cf with indicators_domain := stripDomains cf.indicators_domain }
  pure { cf with
    indicators_ip := pyDedup cf.indicators_ip
    indicators_domain := pyDedup cf.indicators_domain
    indicators_url := pyDedup cf.indicators_url
    indicators_hash := pyDedup cf.indicators_hash
    indicators_email := pyDedup cf.indicators_email
    indicators_countries := pyDedup cf.indicators_countries
    indicators_registry := pyDedup cf.indicators_registry
    indicators_other := pyDedup cf.indicators_other }

/-! ## `CaseFile.update_audit` -/

/-- Whether an existing trail row matches the incoming audit row:
`h.playbook == audit.playbook and h.stage == audit.stage`. -/
def auditMatches (playbook : String) (stage : Int) (h : AuditLog) : Bool :=
  h.playbook = playbook ∧ h.stage = stage

/-- The removal loop of `update_audit`:

```
for h in self.audit_trail:
    if h.playbook == audit.playbook and h.stage == audit.stage:
        self.audit_trail.remove(h)
```

Python iterates by an internal index over the list it is mutating, and
`list.remove(h)` deletes the first element `== h`; `AuditLog` defines no
`__eq__`, so `==` is object identity and the element deleted is exactly the
one at the current index.  We embed the loop state as
(already-visited prefix `acc`, unvisited suffix `rest`): deleting the
element at the current index and advancing the index skips the element
right after the deleted one. -/
def py_remove_go (playbook : String) (stage : Int) :
    List AuditLog → List AuditLog → List AuditLog
  | acc, [] => acc
  | acc, a :: rest =>
    if auditMatches playbook stage a then
      match rest with
      | [] => acc
      | b :: rest2 => py_remove_go playbook stage (acc ++ [b]) rest2
    else
      py_remove_go playbook stage (acc ++ [a]) rest

/-- The `result_data` annotation of `update_audit`: replace a `None` dict by
an empty one, then `audit.result_data["alert_name"] = self.alerts[0].name`. -/
def annotateAudit (audit : AuditLog) (alert_name : String) : AuditLog :=
  { audit with result_data := some (dictSet (audit.result_data.getD []) "alert_name" alert_name) }

/-- The first two statements of `CaseFile.update_audit(audit)` from
`lib/class_helper.py`: record the playbook in `handled_by_playbooks` when
the row signals `playbook_done`, and in `playbooks_to_retry` when it
requests a retry. -/
def updateAuditFlags (cf : CaseFileState) (audit : AuditLog) : CaseFileState :=
  let cf := if audit.playbook_done then
      { cf with handled_by_playbooks := cf.handled_by_playbooks ++ [audit.playbook] }
    else cf
  if audit.result_request_retry then
    { cf with playbooks_to_retry := cf.playbooks_to_retry ++ [audit.playbook] }
  else cf

/-- `CaseFile.update_audit(audit)`, continued: after the flag updates, the
`result_data` annotation reads `self.alerts[0].name` (an `IndexError` when
the case holds no alert), then the removal loop runs and the new row is
appended.  (The trailing `logging_helper.update_audit_log` call is a pure
logging side effect.) -/
def update_audit (cf : CaseFileState) (audit : AuditLog) : Except String CaseFileState :=
  let cf := updateAuditFlags cf audit
  match cf.alerts_names with
  | [] => .error "IndexError: self.alerts[0] on an empty alert list"
  | name :: _ =>
    let audit := annotateAudit audit name
    .ok { cf with audit_trail :=
      py_remove_go audit.playbook audit.stage [] cf.audit_trail ++ [audit] }

/-! ## `Alert.check_against_whitelist` -/

/-- An alert's indicator dict (`self.indicators` of `Alert`), one field per
category as for `CaseFileState`. -/
structure Indicators where
  ip : List String
  domain : List String
  url : List String
  hash : List String
  email : List String
  countries : List String
  registry : List String
  other : List String
deriving DecidableEq, Repr

/-- The process-wide whitelist cache as read by `get_from_cache`: one
optional list per category (`None` when the cache holds no entry). -/
structure WhitelistCache where
  ips : Option (List String)
  domains : Option (List String)
  hashes : Option (List String)
  urls : Option (List String)
  emails : Option (List String)
deriving DecidableEq, Repr

/-- The per-category preparation in `check_against_whitelist`:
`wl = wl if wl is not None else []`, `wl = list(set(wl))` (dedup; the
iteration order of a Python `set` is unspecified and only membership is
consulted afterwards, so we keep first occurrences), then
`wl = [x for x in wl if x != ""]`. -/
def wlPrepare (wl : Option (List String)) : List String :=
  (pyDedup (wl.getD [])).filter (fun x => x ≠ "")

/-- `Alert.check_against_whitelist()` from `lib/class_helper.py`: check the
alert's `ip`, `domain`, `hash`, `url`, `email` indicators, in that order,
against the prepared per-category whitelist, returning `True` on the first
match.  The method performs no assignment to the alert or the cache; the
returned `Indicators` value threads that (absent) state change explicitly. -/
def check_against_whitelist (ind : Indicators) (cache : WhitelistCache) :
    Bool × Indicators :=
  let wl_ips := wlPrepare cache.ips
  let wl_domains := wlPrepare cache.domains
  let wl_hashes := wlPrepare cache.hashes
  let wl_urls := wlPrepare cache.urls
  let wl_emails := wlPrepare cache.emails
  let b :=
    ind.ip.any (fun x => x ∈ wl_ips) ||
    ind.domain.any (fun x => x ∈ wl_domains) ||
    ind.hash.any (fun x => x ∈ wl_hashes) ||
    ind.url.any (fun x => x ∈ wl_urls) ||
    ind.email.any (fun x => x ∈ wl_emails)
  (b, ind)

/-! ## `ContextThreatIntel.__init__` score handling -/

/-- One per-engine `ThreatIntel` result, with the fields the score
calculation reads. -/
structure TIAlert where
  is_hit : Bool
  hit_type : String
  is_known : Bool
deriving DecidableEq, Repr

/-- The score fields assigned by `ContextThreatIntel.__init__`. -/
structure TIScores where
  score_hit : Int
  score_total : Int
  score_hit_sus : Int
  score_hit_mal : Int
  score_known : Int
  score_unknown : Int
deriving DecidableEq, Repr

/-- The derivation loop state of the implicit-score branch: `calc_sus` /
`calc_mal` are Python locals that are only bound when the corresponding
argument was `None` (`none` embeds an unbound local, whose use raises
`NameError`). -/
structure TICalcState where
  score_hit : Int
  score_hit_sus : Int
  score_hit_mal : Int
  calc_sus : Option Bool
  calc_mal : Option Bool

/-- One iteration of `for alert in threat_intel_alerts` in the implicit
branch: count hits, and suspicious/malicious hits when the respective
`calc_*` flag is set.  Python's `and` evaluates `calc_sus` only when the
`hit_type` comparison succeeded, and using it unbound raises `NameError`. -/
def tiCountStep (st : TICalcState) (alert : TIAlert) : Except String TICalcState := do
  if alert.is_hit then
    let st := { st with score_hit := st.score_hit + 1 }
    let st ←
      if alert.hit_type = "suspicious" then
        match st.calc_sus with
        | none => throw "NameError: calc_sus"
        | some c =>
          pure (if c then { st with score_hit_sus := st.score_hit_sus + 1 } else st)
      else
        pure st
    if alert.hit_type = "malicious" then
      match st.calc_mal with
      | none => throw "NameError: calc_mal"
      | some c =>
        pure (if c then { st with score_hit_mal := st.score_hit_mal + 1 } else st)
    else
      pure st
  else
    pure st

/-- The score-handling part of `ContextThreatIntel.__init__`
(`lib/class_helper.py`).  Every range/consistency validation in this code
is a `pass` with the `raise` commented out, including
`score_unknown != score_total - score_known`; the only live `raise` is the
`SystemError` on the implicit `score_unknown` branch, guarded by
`self.score_known == None or self.score_total == None`, which is unreachable
because both attributes have been assigned an `int` by that point. -/
def tiInitScores (threat_intel_alerts : List TIAlert)
    (score_hit score_total score_hit_sus score_hit_mal score_known score_unknown : Option Int) :
    Except String TIScores := do
  let (self_hit, self_total, self_sus, self_mal) ←
    match score_hit, score_total, score_hit_sus, score_hit_mal with
    | some h, some t, some _, some _ =>
      -- explicit branch: the four range checks are disabled (`pass`)
      pure (h, t, (0 : Int), (0 : Int))
    | _, _, _, _ =>
      -- implicit branch: derive by counting
      let st0 : TICalcState :=
        { score_hit := 0
          score_hit_sus := 0
          score_hit_mal := 0
          calc_sus := if score_hit_sus = none then some true else none
          calc_mal := if score_hit_mal = none then some true else none }
      let sus0 : Int := 0
      let mal0 : Int := 0
      let st ← threat_intel_alerts.foldlM tiCountStep st0
      pure (st.score_hit, (threat_intel_alerts.length : Int),
        if score_hit_sus = none then st.score_hit_sus else sus0,
        if score_hit_mal = none then st.score_hit_mal else mal0)
  let self_sus := match score_hit_sus with
    | some v => v  -- the two range checks are disabled (`pass`)
    | none => self_sus
  let self_mal := match score_hit_mal with
    | some v => v  -- the two range checks are disabled (`pass`)
    | none => self_mal
  let self_known := match score_known with
    | some v => v  -- the two range checks are disabled (`pass`)
    | none => (threat_intel_alerts.filter (fun a => a.is_known)).length
  let self_unknown ← match score_unknown with
    | some v =>
      -- the range checks and the `score_unknown != score_total - score_known`
      -- consistency check are disabled (`pass`): the supplied value is stored
      pure v
    | none =>
      -- `self.score_known == None or self.score_total == None` is false here,
      -- so the `SystemError` raise is dead and the value is derived
      pure (self_total - self_known)
  pure { score_hit := self_hit
         score_total := self_total
         score_hit_sus := self_sus
         score_hit_mal := self_mal
         score_known := self_known
         score_unknown := self_unknown }

/-! ## Playbook dispatch loop (`isoar_case_worker.py`, `main`)

The inner loop `for playbook_name in config["playbooks"]` of one case.
A playbook's runtime behaviour towards the current case is embedded as a
`Playbook` record: `enabled` is `config["playbooks"][name]["enabled"]`,
`module_exists` is the result of `check_module_exists`, `can_handle` is the
outcome of the `try` block around `__import__` + `irsoar_can_handle_alert(case)`
(`.error` embeds a raised exception), and `handle_ret` is the outcome of the
`try` block around `irsoar_handle_alert(case)`. -/

/-- What a handler's `try` block hands back: a value that passes
`isinstance(case_file_new, class_helper.CaseFile)` (carrying the returned
case file), or a value of some other type. -/
inductive HandleRet where
  | caseFile (cf : CaseFileState)
  | notCaseFile
deriving DecidableEq

/-- One configured playbook's behaviour towards the current case. -/
structure Playbook where
  name : String
  enabled : Bool
  module_exists : Bool
  can_handle : Except String Bool
  handle_ret : Except String HandleRet

/-- The per-case loop state: `alertHandled` and `case_file_history` from the
worker, plus two observable traces — the handlers actually invoked and the
playbooks for which a per-playbook failure was logged
(`mlog.warning`/`mlog.error` inside the loop body). -/
structure DispatchState where
  alertHandled : Bool
  history : List CaseFileState
  invoked_handlers : List String
  logged_faults : List String
deriving DecidableEq

/-- One iteration of the playbook loop in `isoar_case_worker.main`:
skip disabled playbooks; log and skip missing modules; call
`irsoar_can_handle_alert` catching exceptions; when capable, call
`irsoar_handle_alert` catching exceptions; check the returned value with
`isinstance`; on success set `alertHandled = True`, append the playbook
name to `case_file_new.playbooks` and append the case file to
`case_file_history`.  The loop body contains no `break`: the returned state
is simply fed to the next iteration. -/
def dispatchStep (st : DispatchState) (p : Playbook) : DispatchState :=
  if ¬ p.enabled then
    st
  else if ¬ p.module_exists then
    { st with logged_faults := st.logged_faults ++ [p.name] }
  else
    match p.can_handle with
    | .error _ =>
      { st with logged_faults := st.logged_faults ++ [p.name] }
    | .ok false => st
    | .ok true =>
      let st := { st with invoked_handlers := st.invoked_handlers ++ [p.name] }
      match p.handle_ret with
      | .error _ =>
        { st with logged_faults := st.logged_faults ++ [p.name] }
      | .ok .notCaseFile =>
        { st with logged_faults := st.logged_faults ++ [p.name] }
      | .ok (.caseFile cf) =>
        { st with
          alertHandled := true
          history := st.history ++ [{ cf with playbooks := cf.playbooks ++ [p.name] }] }

/-- The whole per-case playbook loop, started from the worker's initial
state (`alertHandled = False`, empty history). -/
def dispatchCase (playbooks : List Playbook) : DispatchState :=
  playbooks.foldl dispatchStep ⟨false, [], [], []⟩

/-- A playbook is capable for the current case when the loop reaches the
`if can_handle:` test with `True`: it is enabled, its module check passed
and `irsoar_can_handle_alert` returned `True` without raising. -/
def pbCapable (p : Playbook) : Bool :=
  p.enabled && p.module_exists && (match p.can_handle with
    | .ok true => true
    | _ => false)

/-- The case file a playbook successfully hands back, when it is capable and
`irsoar_handle_alert` returns a genuine `CaseFile`. -/
def pbSuccess (p : Playbook) : Option CaseFileState :=
  if pbCapable p then
    match p.handle_ret with
    | .ok (.caseFile cf) => some cf
    | _ => none
  else
    none

/-- A per-playbook fault in the sense of the failure-isolation contract:
the playbook is enabled and either its module cannot be resolved, or its
capability predicate raised, or it was capable and its handler raised. -/
def pbFaulty (p : Playbook) : Prop :=
  p.enabled = true ∧
    (p.module_exists = false ∨
     (∃ e, p.can_handle = .error e) ∨
     (pbCapable p = true ∧ ∃ e, p.handle_ret = .error e))

/-- The loop body logs a per-playbook failure (`mlog.error` for a missing
module or an invalid return value, `mlog.warning` for a raising predicate
or handler) exactly for these playbooks. -/
def pbFaultLogged (p : Playbook) : Bool :=
  p.enabled &&
    (!p.module_exists ||
     (match p.can_handle with
       | .error _ => true
       | .ok _ => false) ||
     (pbCapable p &&
      (match p.handle_ret with
        | .ok (.caseFile _) => false
        | _ => true)))

/-! ## Specification predicates -/

/-- A timeline collection sorted ascending by timestamp (non-strict, as
equal timestamps are allowed by the positional insert). -/
def TLSorted (l : List Context) : Prop :=
  l.Pairwise (fun a b => a.ts ≤ b.ts)

/-- The audit trail holds at most one row per `(playbook, stage)` pair. -/
def auditKeysNodup (trail : List AuditLog) : Prop :=
  (trail.map (fun h => (h.playbook, h.stage))).Nodup

/-! ## Concrete fixtures used by witnesses and counterexamples -/

/-- A fresh case over a single alert named `"alert1"`. -/
def cf0 : CaseFileState := caseFileInit ["alert1"] 0

/-- A certificate whose subject and subject-alternative name both carry a
leading wildcard label. -/
def certFix : CertData :=
  { subject := "*.evil.com", subject_alternative_names := ["*.also.com"] }

/-- An HTTPS transaction carrying `certFix`. -/
def httpFix : HTTPData :=
  { host := "a.com"
    full_url := "http://a.com/"
    request_body := none
    file := none
    certificate := some certFix }

/-- A network flow carrying `httpFix`. -/
def flowFix : FlowData :=
  { source_ip := "1.2.3.4"
    destination_ip := "5.6.7.8"
    http := some httpFix
    dns_query := none }

/-- The flow context used to exercise the wildcard strip pass. -/
def ctxFix : Context := Context.flow 7 flowFix

/-- A first audit row for `("PB", stage 1)`. -/
def audFix1 : AuditLog := AuditLog.mk' "PB" 1 "first try" "first description" 0 0

/-- A second audit row for the same `("PB", stage 1)` pair with a different
outcome. -/
def audFix2 : AuditLog :=
  { AuditLog.mk' "PB" 1 "second try" "second description" 2 2 with result_had_errors := true }

/-- `cf0` after recording `audFix1`. -/
def cfAud1 : CaseFileState := (update_audit cf0 audFix1).toOption.getD cf0

/-- `cfAud1` after recording `audFix2`. -/
def cfAud2 : CaseFileState := (update_audit cfAud1 audFix2).toOption.getD cf0

/-- An enabled, resolvable, capable playbook whose handler returns a valid
case file. -/
def pbOK1 : Playbook :=
  { name := "PB1"
    enabled := true
    module_exists := true
    can_handle := .ok true
    handle_ret := .ok (.caseFile cf0) }

/-- A second playbook just like `pbOK1`. -/
def pbOK2 : Playbook :=
  { name := "PB2"
    enabled := true
    module_exists := true
    can_handle := .ok true
    handle_ret := .ok (.caseFile cf0) }

/-- An enabled playbook whose capability predicate raises. -/
def pbRaise : Playbook :=
  { name := "PBraise"
    enabled := true
    module_exists := true
    can_handle := .error "Exception in irsoar_can_handle_alert"
    handle_ret := .ok .notCaseFile }

/-- `cf0` after adding a person context with timestamp 5. -/
def cfPerson1 : CaseFileState := (add_context cf0 (Context.person 5)).toOption.getD cf0

/-- `cfPerson1` after adding the same person context again. -/
def cfPerson2 : CaseFileState := (add_context cfPerson1 (Context.person 5)).toOption.getD cf0

/-! # Helper lemmas -/

theorem pyDedupGo_mem {α : Type} [DecidableEq α] (a : α) :
    ∀ (l seen : List α), a ∈ pyDedupGo seen l ↔ a ∈ l ∧ a ∉ seen := by
  intro l
  induction l with
  | nil => intro seen; simp [pyDedupGo]
  | cons x xs ih =>
    intro seen
    rw [pyDedupGo]
    by_cases hx : x ∈ seen
    · rw [if_pos hx, ih seen]
      constructor
      · rintro ⟨h1, h2⟩
        exact ⟨List.mem_cons_of_mem x h1, h2⟩
      · rintro ⟨h1, h2⟩
        rcases List.mem_cons.mp h1 with rfl | h3
        · exact absurd hx h2
        · exact ⟨h3, h2⟩
    · rw [if_neg hx]
      simp only [List.mem_cons, ih (seen ++ [x]), List.mem_append, List.mem_singleton]
      constructor
      · rintro (rfl | ⟨h1, h2⟩)
        · exact ⟨Or.inl rfl, hx⟩
        · exact ⟨Or.inr h1, fun hs => h2 (Or.inl hs)⟩
      · rintro ⟨rfl | h1, h2⟩
        · exact Or.inl rfl
        · by_cases hax : a = x
          · exact Or.inl hax
          · refine Or.inr ⟨h1, ?_⟩
            rintro (h | h | h)
            · exact h2 h
            · exact hax h
            · exact List.not_mem_nil a h

theorem pyDedup_mem {α : Type} [DecidableEq α] (a : α) (l : List α) :
    a ∈ pyDedup l ↔ a ∈ l := by
  rw [pyDedup, pyDedupGo_mem]
  simp

theorem pyDedupGo_nodup {α : Type} [DecidableEq α] :
    ∀ (l seen : List α), (pyDedupGo seen l).Nodup := by
  intro l
  induction l with
  | nil => intro seen; simp [pyDedupGo]
  | cons x xs ih =>
    intro seen
    rw [pyDedupGo]
    by_cases hx : x ∈ seen
    · rw [if_pos hx]
      exact ih seen
    · rw [if_neg hx]
      refine List.Nodup.cons ?_ (ih (seen ++ [x]))
      rw [pyDedupGo_mem]
      rintro ⟨_, h2⟩
      exact h2 (List.mem_append.mpr (Or.inr (List.mem_singleton.mpr rfl)))

theorem pyDedup_nodup {α : Type} [DecidableEq α] (l : List α) : (pyDedup l).Nodup :=
  pyDedupGo_nodup l []

theorem tlInsertLoop_eq (c : Context) (t : Int) :
    ∀ (x : Context) (xs : List Context),
      tlInsertLoop c t (x :: xs) =
        (x :: xs).takeWhile (fun y => decide (y.ts ≤ t)) ++
          c :: (x :: xs).dropWhile (fun y => decide (y.ts ≤ t)) := by
  intro x xs
  induction xs generalizing x with
  | nil =>
    by_cases h : x.ts > t
    · simp [tlInsertLoop, h, List.takeWhile, List.dropWhile, not_le.mpr h]
    · simp [tlInsertLoop, h, List.takeWhile, List.dropWhile, not_lt.mp h]
  | cons y ys ih =>
    have hstep : tlInsertLoop c t (x :: y :: ys) =
        if x.ts > t then c :: x :: y :: ys else x :: tlInsertLoop c t (y :: ys) := rfl
    by_cases h : x.ts > t
    · rw [hstep, if_pos h]
      simp [List.takeWhile, List.dropWhile, not_le.mpr h]
    · rw [hstep, if_neg h, ih y]
      simp [List.takeWhile, List.dropWhile, not_lt.mp h]

theorem add_to_timeline_eq (lst : List Context) (c : Context) (t : Int) :
    add_to_timeline lst c t =
      lst.takeWhile (fun y => decide (y.ts ≤ t)) ++
        c :: lst.dropWhile (fun y => decide (y.ts ≤ t)) := by
  cases lst with
  | nil => simp [add_to_timeline, context_is_big_list]
  | cons x xs =>
    rw [add_to_timeline]
    simp only [context_is_big_list, Bool.false_eq_true, if_false, List.length_cons]
    rw [if_neg (by simp)]
    exact tlInsertLoop_eq c t x xs

theorem add_to_timeline_length (lst : List Context) (c : Context) (t : Int) :
    (add_to_timeline lst c t).length = lst.length + 1 := by
  rw [add_to_timeline_eq]
  have h2 : (lst.takeWhile (fun y => decide (y.ts ≤ t))).length +
      (lst.dropWhile (fun y => decide (y.ts ≤ t))).length = lst.length := by
    rw [← List.length_append, List.takeWhile_append_dropWhile]
  simp only [List.length_append, List.length_cons]
  omega

theorem add_to_timeline_sorted (c : Context) (lst : List Context) (h : TLSorted lst) :
    TLSorted (add_to_timeline lst c c.ts) := by
  rw [add_to_timeline_eq]
  induction lst with
  | nil => simp [TLSorted]
  | cons x xs ih =>
    rcases (List.pairwise_cons.mp h) with ⟨hx, hxs⟩
    by_cases hp : x.ts ≤ c.ts
    · rw [List.takeWhile_cons_of_pos (by simpa using hp),
        List.dropWhile_cons_of_pos (by simpa using hp)]
      rw [List.cons_append]
      refine List.pairwise_cons.mpr ⟨?_, ih hxs⟩
      intro y hy
      rcases List.mem_append.mp hy with hy1 | hy2
      · exact hx y (List.takeWhile_sublist _ |>.subset hy1)
      · rcases List.mem_cons.mp hy2 with rfl | hy3
        · exact hp
        · exact hx y (List.dropWhile_sublist _ |>.subset hy3)
    · rw [List.takeWhile_cons_of_neg (by simpa using hp),
        List.dropWhile_cons_of_neg (by simpa using hp)]
      rw [List.nil_append]
      refine List.pairwise_cons.mpr ⟨?_, h⟩
      intro y hy
      rcases List.mem_cons.mp hy with rfl | hy2
      · exact le_of_lt (not_le.mp hp)
      · exact le_trans (le_of_lt (not_le.mp hp)) (hx y hy2)

theorem foldl_add_to_timeline_sorted (cs : List Context) :
    ∀ acc, TLSorted acc →
      TLSorted (cs.foldl (fun l c => add_to_timeline l c c.ts) acc) := by
  induction cs with
  | nil => intro acc h; simpa using h
  | cons c cs ih =>
    intro acc h
    exact ih _ (add_to_timeline_sorted c acc h)

theorem py_remove_go_cons (pb : String) (st : Int) (acc : List AuditLog) (a : AuditLog)
    (rest : List AuditLog) :
    py_remove_go pb st acc (a :: rest) =
      if auditMatches pb st a then
        (match rest with
          | [] => acc
          | b :: rest2 => py_remove_go pb st (acc ++ [b]) rest2)
      else
        py_remove_go pb st (acc ++ [a]) rest := by
  rw [py_remove_go.eq_def]

theorem py_remove_go_no_match (pb : String) (st : Int) :
    ∀ (rest acc : List AuditLog), (∀ x ∈ rest, auditMatches pb st x = false) →
      py_remove_go pb st acc rest = acc ++ rest := by
  intro rest
  induction rest with
  | nil => intro acc _; simp [py_remove_go]
  | cons a rest ih =>
    intro acc hall
    rw [py_remove_go_cons]
    rw [if_neg (by simp [hall a (List.mem_cons_self a rest)])]
    rw [ih _ (fun x hx => hall x (List.mem_cons_of_mem a hx))]
    simp

theorem py_remove_go_unique (pb : String) (st : Int) :
    ∀ (rest acc : List AuditLog), (rest.filter (auditMatches pb st)).length ≤ 1 →
      py_remove_go pb st acc rest = acc ++ rest.filter (fun a => !(auditMatches pb st a)) := by
  intro rest
  induction rest with
  | nil => intro acc _; simp [py_remove_go]
  | cons a rest ih =>
    intro acc hle
    by_cases hm : auditMatches pb st a
    · rw [py_remove_go_cons, if_pos hm]
      have hnone : ∀ x ∈ rest, auditMatches pb st x = false := by
        intro x hx
        by_contra hco
        have hxm : auditMatches pb st x = true := by
          revert hco; cases auditMatches pb st x <;> simp
        have h2 : 2 ≤ ((a :: rest).filter (auditMatches pb st)).length := by
          rw [List.filter_cons_of_pos hm]
          have hmem : x ∈ rest.filter (auditMatches pb st) := List.mem_filter.mpr ⟨hx, hxm⟩
          have := List.length_pos_of_mem hmem
          simp only [List.length_cons]
          omega
        omega
      have hfr : rest.filter (fun a => !(auditMatches pb st a)) = rest := by
        apply List.filter_eq_self.mpr
        intro x hx
        simp [hnone x hx]
      rw [List.filter_cons_of_neg (by simp [hm])]
      rw [hfr]
      match rest, hnone with
      | [], _ => simp
      | b :: rest2, hnone =>
        show py_remove_go pb st (acc ++ [b]) rest2 = acc ++ b :: rest2
        rw [py_remove_go_no_match pb st rest2 (acc ++ [b])
          (fun x hx => hnone x (List.mem_cons_of_mem b hx))]
        simp
    · rw [py_remove_go_cons, if_neg hm]
      have hm' : auditMatches pb st a = false := by
        revert hm; cases auditMatches pb st a <;> simp
      rw [ih]
      · rw [List.filter_cons_of_pos (by simp [hm'])]
        simp
      · rw [List.filter_cons_of_neg (by simp [hm'])] at hle
        exact hle

/-! # Claim theorems -/

/-- **C2** (counter-evidence for the claimed overflow bound): the guard of
`add_to_timeline` tests the *item* (`type(context) == list and
len(context) >= THRESHOLD_MAX_CONTEXTS`), not the collection, so a call on
a collection already holding `THRESHOLD_MAX_CONTEXTS = 1000` entries still
inserts and the collection grows to 1001 entries, contradicting the claim
that an at-threshold collection is left unmutated. -/
theorem add_to_timeline_overflow_guard_ineffective :
    (List.replicate THRESHOLD_MAX_CONTEXTS (Context.person 0)).length =
      THRESHOLD_MAX_CONTEXTS ∧
    (add_to_timeline (List.replicate THRESHOLD_MAX_CONTEXTS (Context.person 0))
        (Context.person 0) 0).length = THRESHOLD_MAX_CONTEXTS + 1 := by
  constructor
  · simp
  · rw [add_to_timeline_length]
    simp

/-- **C5**: on a timeline sorted ascending by timestamp, `add_to_timeline`
places the new item exactly before the first element whose timestamp is
strictly greater than the given timestamp (the `takeWhile`/`dropWhile`
split at `ts ≤ t`), appending when no such element exists; consequently
every sequence of insertions starting from the empty collection yields a
collection sorted ascending by timestamp. -/
theorem add_to_timeline_positional_insert_sorted :
    (∀ (lst : List Context) (c : Context) (t : Int), TLSorted lst →
      add_to_timeline lst c t =
        lst.takeWhile (fun y => decide (y.ts ≤ t)) ++
          c :: lst.dropWhile (fun y => decide (y.ts ≤ t))) ∧
    (∀ cs : List Context,
      TLSorted (cs.foldl (fun l c => add_to_timeline l c c.ts) [])) :=
  ⟨fun lst c t _ => add_to_timeline_eq lst c t,
   fun cs => foldl_add_to_timeline_sorted cs [] (List.Pairwise.nil)⟩

/-- Witness for the sorted-insert theorem: inserting timestamp 2 into the
sorted timeline `[1, 3]` lands between the two elements. -/
theorem add_to_timeline_positional_insert_sorted_witness :
    TLSorted [Context.person 1, Context.person 3] ∧
    add_to_timeline [Context.person 1, Context.person 3] (Context.person 2) 2 =
      [Context.person 1, Context.person 2, Context.person 3] := by
  have hs : TLSorted [Context.person 1, Context.person 3] := by
    refine List.Pairwise.cons ?_ (List.Pairwise.cons ?_ List.Pairwise.nil)
    · intro b hb
      rcases List.mem_singleton.mp hb with rfl
      simp [Context.ts]
    · intro b hb
      simp at hb
  refine ⟨hs, ?_⟩
  rw [add_to_timeline_positional_insert_sorted.1
    [Context.person 1, Context.person 3] (Context.person 2) 2 hs]
  rfl

/-- **C6**: the three terminal `AuditLog` transitions — `set_error` always
leaves `result_request_retry = true`; `set_successful` and `set_warning`
always leave it `false`; and each stamps `result_time` with the current
time and sets `stage_done = true`. -/
theorem auditLog_terminal_transitions :
    ∀ (a : AuditLog) (inIris : Bool) (msg data exc wmsg : String)
      (icn : Option String) (now : Int),
      ((a.set_error inIris msg data exc now).result_request_retry = true ∧
       (a.set_error inIris msg data exc now).result_time = now ∧
       (a.set_error inIris msg data exc now).stage_done = true) ∧
      ((a.set_successful msg data icn now).result_request_retry = false ∧
       (a.set_successful msg data icn now).result_time = now ∧
       (a.set_successful msg data icn now).stage_done = true) ∧
      ((a.set_warning inIris wmsg data now).result_request_retry = false ∧
       (a.set_warning inIris wmsg data now).result_time = now ∧
       (a.set_warning inIris wmsg data now).stage_done = true) := by
  intro a inIris msg data exc wmsg icn now
  cases icn <;> exact ⟨⟨rfl, rfl, rfl⟩, ⟨rfl, rfl, rfl⟩, ⟨rfl, rfl, rfl⟩⟩

/-- **C9** (counterexample): constructing `ContextThreatIntel` with all
scores supplied explicitly and `score_unknown = 5` inconsistent with
`score_total - score_known = 0` succeeds and stores the inconsistent value
— no error is raised, because the consistency `raise` is commented out. -/
theorem threatIntel_inconsistent_scores_accepted_counterexample :
    tiInitScores [] (some 1) (some 2) (some 0) (some 0) (some 2) (some 5) =
      .ok { score_hit := 1, score_total := 2, score_hit_sus := 0, score_hit_mal := 0,
            score_known := 2, score_unknown := 5 } ∧
    (5 : Int) ≠ 2 - 2 := by
  exact ⟨rfl, by decide⟩

/-- **C9** (amended): with all six scores supplied explicitly, construction
always succeeds and stores exactly the supplied values, even when
`score_unknown` disagrees with `score_total - score_known` — the
validation branch exists but its `raise` is disabled. -/
theorem threatIntel_explicit_scores_accepted :
    ∀ (alerts : List TIAlert) (h t s m k u : Int), u ≠ t - k →
      tiInitScores alerts (some h) (some t) (some s) (some m) (some k) (some u) =
        .ok { score_hit := h, score_total := t, score_hit_sus := s, score_hit_mal := m,
              score_known := k, score_unknown := u } := by
  intro alerts h t s m k u _
  rfl

/-- Witness for the amended C9 theorem at a concrete inconsistent input. -/
theorem threatIntel_explicit_scores_accepted_witness :
    (7 : Int) ≠ 3 - 1 ∧
    tiInitScores [] (some 1) (some 3) (some 0) (some 0) (some 1) (some 7) =
      .ok { score_hit := 1, score_total := 3, score_hit_sus := 0, score_hit_mal := 0,
            score_known := 1, score_unknown := 7 } :=
  ⟨by decide, threatIntel_explicit_scores_accepted [] 1 3 0 0 1 7 (by decide)⟩

/-- **C3** (counter-evidence for the wildcard-strip claim): one
`add_context` call whose certificate carries the subject `"*.evil.com"`
and the subject-alternative name `"*.also.com"` leaves `"*.also.com"` in
the case's domain indicators: the strip pass mutates the list while
iterating over it, so the element that slides into the removed slot is
skipped. -/
theorem add_context_wildcard_retained :
    (add_context cf0 ctxFix).map (fun c => c.indicators_domain) =
      .ok ["a.com", "*.also.com", "evil.com"] ∧
    pyStartsWith "*.also.com" "*." = true := by
  exact ⟨rfl, rfl⟩

/-- **C10**: the whitelist check returns `true` exactly when some indicator
in one of the categories ip, domain, hash, url, email occurs in the
corresponding cached allow-list (with empty strings never matching, as the
prepared list is deduplicated and empty-filtered), and it leaves the
alert's indicator set unchanged. -/
theorem whitelist_check_pure_and_match_semantics :
    ∀ (ind : Indicators) (cache : WhitelistCache),
      (check_against_whitelist ind cache).2 = ind ∧
      ((check_against_whitelist ind cache).1 = true ↔
        ((∃ x ∈ ind.ip, x ∈ cache.ips.getD [] ∧ x ≠ "") ∨
         (∃ x ∈ ind.domain, x ∈ cache.domains.getD [] ∧ x ≠ "") ∨
         (∃ x ∈ ind.hash, x ∈ cache.hashes.getD [] ∧ x ≠ "") ∨
         (∃ x ∈ ind.url, x ∈ cache.urls.getD [] ∧ x ≠ "") ∨
         (∃ x ∈ ind.email, x ∈ cache.emails.getD [] ∧ x ≠ ""))) := by
  intro ind cache
  refine ⟨rfl, ?_⟩
  simp only [check_against_whitelist, wlPrepare, Bool.or_eq_true, List.any_eq_true,
    decide_eq_true_eq, List.mem_filter, pyDedup_mem]
  constructor
  · rintro ((((h | h) | h) | h) | h)
    · exact Or.inl (by simpa using h)
    · exact Or.inr (Or.inl (by simpa using h))
    · exact Or.inr (Or.inr (Or.inl (by simpa using h)))
    · exact Or.inr (Or.inr (Or.inr (Or.inl (by simpa using h))))
    · exact Or.inr (Or.inr (Or.inr (Or.inr (by simpa using h))))
  · rintro (h | h | h | h | h)
    · exact Or.inl (Or.inl (Or.inl (Or.inl (by simpa using h))))
    · exact Or.inl (Or.inl (Or.inl (Or.inr (by simpa using h))))
    · exact Or.inl (Or.inl (Or.inr (by simpa using h)))
    · exact Or.inl (Or.inr (by simpa using h))
    · exact Or.inr (by simpa using h)

/-- Every successful `add_context` call ends with the dedup post-pass, so
each of the eight indicator category lists of the result is duplicate-free. -/
theorem add_context_ok_nodup {cf : CaseFileState} {ctx : Context} {cf' : CaseFileState}
    (h : add_context cf ctx = .ok cf') :
    cf'.indicators_ip.Nodup ∧ cf'.indicators_domain.Nodup ∧
    cf'.indicators_url.Nodup ∧ cf'.indicators_hash.Nodup ∧
    cf'.indicators_email.Nodup ∧ cf'.indicators_countries.Nodup ∧
    cf'.indicators_registry.Nodup ∧ cf'.indicators_other.Nodup := by
  rw [add_context] at h
  cases hb : addContextBranch cf ctx ctx.ts with
  | error e =>
    rw [hb] at h
    exact absurd h (by simp [Bind.bind, Except.bind])
  | ok mid =>
    rw [hb] at h
    simp only [Bind.bind, Except.bind, pure, Except.pure, Except.ok.injEq] at h
    subst h
    exact ⟨pyDedup_nodup _, pyDedup_nodup _, pyDedup_nodup _, pyDedup_nodup _,
      pyDedup_nodup _, pyDedup_nodup _, pyDedup_nodup _, pyDedup_nodup _⟩

/-- **C8**: indicator extraction is idempotent on the indicator set — after
running `add_context` twice with the same context, no indicator category
list contains a duplicate value, because the dedup post-pass runs after
every addition (indeed the property already holds after each call). -/
theorem add_context_idempotent_no_duplicates :
    ∀ (cf : CaseFileState) (ctx : Context) (cf1 cf2 : CaseFileState),
      add_context cf ctx = .ok cf1 → add_context cf1 ctx = .ok cf2 →
      (cf1.indicators_ip.Nodup ∧ cf1.indicators_domain.Nodup ∧
       cf1.indicators_url.Nodup ∧ cf1.indicators_hash.Nodup ∧
       cf1.indicators_email.Nodup ∧ cf1.indicators_countries.Nodup ∧
       cf1.indicators_registry.Nodup ∧ cf1.indicators_other.Nodup) ∧
      (cf2.indicators_ip.Nodup ∧ cf2.indicators_domain.Nodup ∧
       cf2.indicators_url.Nodup ∧ cf2.indicators_hash.Nodup ∧
       cf2.indicators_email.Nodup ∧ cf2.indicators_countries.Nodup ∧
       cf2.indicators_registry.Nodup ∧ cf2.indicators_other.Nodup) := by
  intro cf ctx cf1 cf2 h1 h2
  exact ⟨add_context_ok_nodup h1, add_context_ok_nodup h2⟩

/-- Witness for the idempotence theorem: adding the same person context to a
fresh case twice. -/
theorem add_context_idempotent_no_duplicates_witness :
    add_context cf0 (Context.person 5) = .ok cfPerson1 ∧
    add_context cfPerson1 (Context.person 5) = .ok cfPerson2 ∧
    cfPerson2.indicators_ip.Nodup :=
  ⟨rfl, rfl,
    (add_context_idempotent_no_duplicates cf0 (Context.person 5) cfPerson1 cfPerson2
      rfl rfl).2.1⟩


theorem updateAuditFlags_alerts_names (cf : CaseFileState) (a : AuditLog) :
    (updateAuditFlags cf a).alerts_names = cf.alerts_names := by
  rw [updateAuditFlags]
  split <;> split <;> rfl

theorem updateAuditFlags_audit_trail (cf : CaseFileState) (a : AuditLog) :
    (updateAuditFlags cf a).audit_trail = cf.audit_trail := by
  rw [updateAuditFlags]
  split <;> split <;> rfl

/-- Unfolding a successful `update_audit`: the case held at least one alert,
`alerts_names` is unchanged, and the trail is the removal-loop result with
the annotated new row appended (`headI` is the first alert's name). -/
theorem update_audit_ok_spec {cf : CaseFileState} {a : AuditLog} {cf' : CaseFileState}
    (h : update_audit cf a = .ok cf') :
    cf.alerts_names ≠ [] ∧
    cf'.alerts_names = cf.alerts_names ∧
    cf'.audit_trail =
      py_remove_go a.playbook a.stage [] cf.audit_trail ++
        [annotateAudit a cf.alerts_names.headI] := by
  rw [update_audit] at h
  simp only [updateAuditFlags_alerts_names] at h
  cases hn : cf.alerts_names with
  | nil =>
    rw [hn] at h
    exact absurd h (by simp)
  | cons name rest =>
    rw [hn] at h
    rw [Except.ok.injEq] at h
    subst h
    refine ⟨by simp, ?_, ?_⟩
    · simp [hn]
    · simp only [updateAuditFlags_audit_trail, hn]
      rfl

theorem auditMatches_iff {pb : String} {st : Int} {h : AuditLog} :
    auditMatches pb st h = true ↔ (h.playbook = pb ∧ h.stage = st) := by
  simp [auditMatches]

theorem auditKeysNodup_filter_le_one {tr : List AuditLog} (pb : String) (st : Int)
    (h : auditKeysNodup tr) :
    (tr.filter (auditMatches pb st)).length ≤ 1 := by
  induction tr with
  | nil => simp
  | cons a tr ih =>
    rw [auditKeysNodup, List.map_cons, List.nodup_cons] at h
    obtain ⟨hnot, hrest⟩ := h
    by_cases hm : auditMatches pb st a
    · rw [List.filter_cons_of_pos hm]
      have hempty : tr.filter (auditMatches pb st) = [] := by
        rw [List.filter_eq_nil_iff]
        intro x hx hxm
        apply hnot
        have h1 := auditMatches_iff.mp hxm
        have h2 := auditMatches_iff.mp hm
        have hkey : (a.playbook, a.stage) = (x.playbook, x.stage) := by
          rw [h1.1, h1.2, h2.1, h2.2]
        rw [hkey]
        exact List.mem_map_of_mem _ hx
      rw [hempty]
      simp
    · rw [List.filter_cons_of_neg hm]
      exact ih hrest

theorem annotateAudit_matches (a : AuditLog) (n : String) :
    auditMatches a.playbook a.stage (annotateAudit a n) = true := by
  simp [auditMatches, annotateAudit]

/-- A successful `update_audit` on a trail with pairwise-distinct
`(playbook, stage)` keys keeps the keys pairwise distinct, and the rows
matching the new row's key are exactly the annotated new row. -/
theorem update_audit_trail_unique {cf : CaseFileState} {a : AuditLog} {cf' : CaseFileState}
    (hN : auditKeysNodup cf.audit_trail) (h : update_audit cf a = .ok cf') :
    auditKeysNodup cf'.audit_trail ∧
    cf'.audit_trail.filter (auditMatches a.playbook a.stage) =
      [annotateAudit a cf.alerts_names.headI] := by
  obtain ⟨hne, hnames, htrail⟩ := update_audit_ok_spec h
  rw [py_remove_go_unique _ _ _ _ (auditKeysNodup_filter_le_one _ _ hN),
    List.nil_append] at htrail
  constructor
  · rw [auditKeysNodup, htrail, List.map_append, List.nodup_append]
    refine ⟨?_, by simp, ?_⟩
    · exact List.Nodup.sublist (List.Sublist.map _ (List.filter_sublist _)) hN
    · intro k hk1 hk2
      simp only [List.map_cons, List.map_nil, List.mem_singleton] at hk2
      obtain ⟨x, hx1, hx2⟩ := List.mem_map.mp hk1
      obtain ⟨hx3, hx4⟩ := List.mem_filter.mp hx1
      subst hk2
      have : (x.playbook, x.stage) = (a.playbook, a.stage) := by
        rw [hx2]
        simp [annotateAudit]
      have hxm : auditMatches a.playbook a.stage x = true :=
        auditMatches_iff.mpr ⟨congrArg Prod.fst this, congrArg Prod.snd this⟩
      rw [hxm] at hx4
      simp at hx4
  · rw [htrail, List.filter_append, List.filter_filter]
    have h1 : ∀ x : AuditLog,
        (auditMatches a.playbook a.stage x && !(auditMatches a.playbook a.stage x)) = false := by
      intro x
      cases auditMatches a.playbook a.stage x <;> rfl
    rw [List.filter_congr (fun x _ => h1 x), List.filter_false, List.nil_append]
    rw [List.filter_cons_of_pos (annotateAudit_matches a _), List.filter_nil]

/-- **C4**: the audit trail keyed by `(playbook, stage)` — a fresh case's
trail has pairwise-distinct keys, every successful `update_audit` preserves
that invariant (replace, never append, on a key collision), and after two
`update_audit` calls whose rows share a `(playbook, stage)` pair the trail
holds exactly one row for that pair: the (annotated) row of the most
recent call. -/
theorem update_audit_at_most_one_row_per_key :
    (∀ (names : List String) (now : Int),
      auditKeysNodup (caseFileInit names now).audit_trail) ∧
    (∀ (cf : CaseFileState) (a : AuditLog) (cf' : CaseFileState),
      auditKeysNodup cf.audit_trail → update_audit cf a = .ok cf' →
      auditKeysNodup cf'.audit_trail) ∧
    (∀ (cf : CaseFileState) (a1 a2 : AuditLog) (cf1 cf2 : CaseFileState),
      auditKeysNodup cf.audit_trail →
      a2.playbook = a1.playbook → a2.stage = a1.stage →
      update_audit cf a1 = .ok cf1 → update_audit cf1 a2 = .ok cf2 →
      cf2.audit_trail.filter (auditMatches a2.playbook a2.stage) =
        [annotateAudit a2 cf.alerts_names.headI]) := by
  refine ⟨?_, ?_, ?_⟩
  · intro names now
    simp [auditKeysNodup, caseFileInit]
  · intro cf a cf' hN h
    exact (update_audit_trail_unique hN h).1
  · intro cf a1 a2 cf1 cf2 hN _ _ h1 h2
    have s1 := update_audit_trail_unique hN h1
    have s2 := update_audit_trail_unique s1.1 h2
    have hnames : cf1.alerts_names = cf.alerts_names := (update_audit_ok_spec h1).2.1
    rw [s2.2, hnames]

/-- Witness for the C4 theorem: recording two rows for `("PB", 1)` in a
fresh case leaves exactly one row for that pair — the second one. -/
theorem update_audit_at_most_one_row_per_key_witness :
    auditKeysNodup cf0.audit_trail ∧
    audFix2.playbook = audFix1.playbook ∧ audFix2.stage = audFix1.stage ∧
    update_audit cf0 audFix1 = .ok cfAud1 ∧
    update_audit cfAud1 audFix2 = .ok cfAud2 ∧
    cfAud2.audit_trail.filter (auditMatches audFix2.playbook audFix2.stage) =
      [annotateAudit audFix2 cf0.alerts_names.headI] := by
  have hN : auditKeysNodup cf0.audit_trail := by
    rw [auditKeysNodup]
    decide
  refine ⟨hN, rfl, rfl, rfl, rfl, ?_⟩
  exact update_audit_at_most_one_row_per_key.2.2 cf0 audFix1 audFix2 cfAud1 cfAud2
    hN rfl rfl rfl rfl

theorem dispatchStep_fields (st : DispatchState) (p : Playbook) :
    (dispatchStep st p).alertHandled = (st.alertHandled || (pbSuccess p).isSome) ∧
    (dispatchStep st p).invoked_handlers =
      st.invoked_handlers ++ (if pbCapable p then [p.name] else []) ∧
    (dispatchStep st p).history =
      st.history ++ (match pbSuccess p with
        | some cf => [{ cf with playbooks := cf.playbooks ++ [p.name] }]
        | none => []) ∧
    (dispatchStep st p).logged_faults =
      st.logged_faults ++ (if pbFaultLogged p then [p.name] else []) := by
  obtain ⟨name, enabled, mex, ch, hr⟩ := p
  cases enabled with
  | false => simp [dispatchStep, pbCapable, pbSuccess, pbFaultLogged]
  | true =>
    cases mex with
    | false => simp [dispatchStep, pbCapable, pbSuccess, pbFaultLogged]
    | true =>
      cases ch with
      | error e => simp [dispatchStep, pbCapable, pbSuccess, pbFaultLogged]
      | ok b =>
        cases b with
        | false => simp [dispatchStep, pbCapable, pbSuccess, pbFaultLogged]
        | true =>
          cases hr with
          | error e => simp [dispatchStep, pbCapable, pbSuccess, pbFaultLogged]
          | ok r =>
            cases r with
            | notCaseFile => simp [dispatchStep, pbCapable, pbSuccess, pbFaultLogged]
            | caseFile cf => simp [dispatchStep, pbCapable, pbSuccess, pbFaultLogged]

theorem dispatch_foldl_spec (pbs : List Playbook) :
    ∀ st : DispatchState,
      (pbs.foldl dispatchStep st).alertHandled =
        (st.alertHandled || pbs.any (fun p => (pbSuccess p).isSome)) ∧
      (pbs.foldl dispatchStep st).invoked_handlers =
        st.invoked_handlers ++ (pbs.filter pbCapable).map (fun p => p.name) ∧
      (pbs.foldl dispatchStep st).history =
        st.history ++ pbs.filterMap (fun p => (pbSuccess p).map
          (fun cf => { cf with playbooks := cf.playbooks ++ [p.name] })) ∧
      (pbs.foldl dispatchStep st).logged_faults =
        st.logged_faults ++ (pbs.filter pbFaultLogged).map (fun p => p.name) := by
  induction pbs with
  | nil => intro st; simp
  | cons p pbs ih =>
    intro st
    obtain ⟨f1, f2, f3, f4⟩ := dispatchStep_fields st p
    obtain ⟨g1, g2, g3, g4⟩ := ih (dispatchStep st p)
    rw [List.foldl_cons]
    refine ⟨?_, ?_, ?_, ?_⟩
    · rw [g1, f1, List.any_cons, Bool.or_assoc]
    · rw [g2, f2, List.append_assoc]
      by_cases hc : pbCapable p
      · rw [List.filter_cons_of_pos hc]
        simp [hc]
      · rw [List.filter_cons_of_neg hc]
        simp [hc]
    · rw [g3, f3, List.append_assoc]
      cases hs : pbSuccess p with
      | some cf => simp [List.filterMap_cons, hs]
      | none => simp [List.filterMap_cons, hs]
    · rw [g4, f4, List.append_assoc]
      by_cases hc : pbFaultLogged p
      · rw [List.filter_cons_of_pos hc]
        simp [hc]
      · rw [List.filter_cons_of_neg hc]
        simp [hc]

/-- **C1** (counterexample to "first capable handler wins"): with two
enabled, capable playbooks whose handlers both return a valid case file,
the second handler is still invoked after the first one succeeded — the
loop body contains no `break` — and both returned case files are appended
to the history, each with its own playbook's name appended. -/
theorem dispatch_no_first_wins_counterexample :
    pbSuccess pbOK1 = some cf0 ∧
    (dispatchCase [pbOK1, pbOK2]).alertHandled = true ∧
    (dispatchCase [pbOK1, pbOK2]).invoked_handlers = ["PB1", "PB2"] ∧
    (dispatchCase [pbOK1, pbOK2]).invoked_handlers ≠ ["PB1"] ∧
    (dispatchCase [pbOK1, pbOK2]).history.map (fun c => c.playbooks) = [["PB1"], ["PB2"]] := by
  refine ⟨rfl, rfl, rfl, by decide, rfl⟩

/-- **C1** (amended): when a capable playbook's handler returns a
well-formed `CaseFile`, its name is appended to the returned case file's
playbook list, the case is marked handled, and the loop nevertheless goes
on: every capable playbook's handler is invoked (all capable handlers run,
in configured order), each successful one appending its case file to the
history. -/
theorem dispatch_all_capable_handlers_run :
    ∀ pbs : List Playbook,
      (dispatchCase pbs).invoked_handlers = (pbs.filter pbCapable).map (fun p => p.name) ∧
      (dispatchCase pbs).alertHandled = pbs.any (fun p => (pbSuccess p).isSome) ∧
      (dispatchCase pbs).history =
        pbs.filterMap (fun p => (pbSuccess p).map
          (fun cf => { cf with playbooks := cf.playbooks ++ [p.name] })) := by
  intro pbs
  obtain ⟨g1, g2, g3, _⟩ := dispatch_foldl_spec pbs ⟨false, [], [], []⟩
  exact ⟨by simpa using g2, by simpa using g1, by simpa using g3⟩

theorem pbFaulty_success_none {p : Playbook} (h : pbFaulty p) : pbSuccess p = none := by
  obtain ⟨he, hcase⟩ := h
  rcases hcase with hm | ⟨e, hch⟩ | ⟨hcap, e, hhr⟩
  · rw [pbSuccess]
    rw [if_neg]
    simp [pbCapable, hm]
  · rw [pbSuccess]
    rw [if_neg]
    simp [pbCapable, hch]
  · rw [pbSuccess, if_pos hcap, hhr]

theorem pbFaulty_logged {p : Playbook} (h : pbFaulty p) : pbFaultLogged p = true := by
  obtain ⟨he, hcase⟩ := h
  rcases hcase with hm | ⟨e, hch⟩ | ⟨hcap, e, hhr⟩
  · simp [pbFaultLogged, he, hm]
  · simp [pbFaultLogged, he, hch]
  · simp [pbFaultLogged, he, hcap, hhr]

/-- **C7**: a per-playbook fault — unresolvable module, raising capability
predicate, or raising handler — is logged for that playbook and isolated:
the dispatch outcome (`alertHandled` and the produced case-file history) on
a playbook list containing the faulty playbook is the same as on the list
with the faulty playbook removed, so the fault affects neither the other
playbooks nor the loop's completion (the loop function is total and never
propagates the fault). -/
theorem dispatch_fault_isolated :
    ∀ (l1 : List Playbook) (p : Playbook) (l2 : List Playbook), pbFaulty p →
      (dispatchCase (l1 ++ p :: l2)).alertHandled = (dispatchCase (l1 ++ l2)).alertHandled ∧
      (dispatchCase (l1 ++ p :: l2)).history = (dispatchCase (l1 ++ l2)).history ∧
      p.name ∈ (dispatchCase (l1 ++ p :: l2)).logged_faults := by
  intro l1 p l2 hf
  obtain ⟨g1, _, g3, g4⟩ := dispatch_foldl_spec (l1 ++ p :: l2) ⟨false, [], [], []⟩
  obtain ⟨h1, _, h3, _⟩ := dispatch_foldl_spec (l1 ++ l2) ⟨false, [], [], []⟩
  have hnone := pbFaulty_success_none hf
  refine ⟨?_, ?_, ?_⟩
  · rw [dispatchCase, dispatchCase, g1, h1]
    simp [List.any_append, hnone]
  · rw [dispatchCase, dispatchCase, g3, h3]
    simp [List.filterMap_append, List.filterMap_cons, hnone]
  · have g4' : (dispatchCase (l1 ++ p :: l2)).logged_faults =
        ((l1 ++ p :: l2).filter pbFaultLogged).map (fun q => q.name) := by
      rw [dispatchCase, g4]
      simp
    rw [g4']
    refine List.mem_map_of_mem _ ?_
    rw [List.mem_filter]
    exact ⟨List.mem_append.mpr (Or.inr (List.mem_cons_self p l2)), pbFaulty_logged hf⟩

/-- Witness for the fault-isolation theorem: a playbook whose capability
predicate raises, between no playbook and one healthy playbook. -/
theorem dispatch_fault_isolated_witness :
    pbFaulty pbRaise ∧
    (dispatchCase ([] ++ pbRaise :: [pbOK1])).alertHandled =
      (dispatchCase ([] ++ [pbOK1])).alertHandled ∧
    (dispatchCase ([] ++ pbRaise :: [pbOK1])).history =
      (dispatchCase ([] ++ [pbOK1])).history ∧
    pbRaise.name ∈ (dispatchCase ([] ++ pbRaise :: [pbOK1])).logged_faults := by
  have hf : pbFaulty pbRaise :=
    ⟨rfl, Or.inr (Or.inl ⟨"Exception in irsoar_can_handle_alert", rfl⟩)⟩
  exact ⟨hf, dispatch_fault_isolated [] pbRaise [pbOK1] hf⟩
